import Mathlib

/-!
Verification development for the `proxychooser` package (src/index.js).

The JavaScript source is shallowly embedded: JS strings become `List Char`,
the regular expressions of `proxyType`/`convertProxy` become decidable
predicates, DNS resolution and the network probe become explicit oracles
(`Env`), `Math.random` becomes a supplied stream of naturals, thrown
exceptions become explicit error results, and the mutable private fields
`#proxyList`, `#options`, `#cache` become an explicit state record that is
threaded through every operation.
-/

set_option autoImplicit false

namespace ProxyChooser

/-- Model of a JavaScript string: its list of characters. -/
abbrev JStr := List Char

/-- Characters matched by the JavaScript regex class `\w` (ASCII word characters). -/
def isWordChar (c : Char) : Bool := c.isAlphanum || c = '_'

/-- Characters matched by the class `[\w.]` used for the host of the direct pattern. -/
def isWordDot (c : Char) : Bool := isWordChar c || c = '.'

/-- Embedding of JavaScript `String.prototype.split` with a one-character
separator, as used by `convertProxy` (`proxy.split(":")`, `proxy.split("@")`). -/
def splitOnChar (sep : Char) : JStr → List JStr
  | [] => [[]]
  | c :: rest =>
    if c = sep then [] :: splitOnChar sep rest
    else
      match splitOnChar sep rest with
      | [] => [[c]]
      | h :: t => (c :: h) :: t

/-- Joining with a separator, the inverse of `splitOnChar`. -/
def joinSep (sep : Char) : List JStr → JStr
  | [] => []
  | [x] => x
  | x :: y :: t => x ++ sep :: joinSep sep (y :: t)

/-- Test of the regex `/^[\w.]+:\d+$/` (the `directPattern` of `proxyType`).
Since `:` is excluded from `[\w.]` and from `\d`, a string matches exactly
when it splits on `:` into a nonempty host of word characters and dots and a
nonempty all-digit port. -/
def directPatternTest (s : JStr) : Bool :=
  match splitOnChar ':' s with
  | [host, port] =>
    !host.isEmpty && host.all isWordDot && !port.isEmpty && port.all Char.isDigit
  | _ => false

/-- Test of the regex `/^([^:@]+):([^:@]+)@([^\s@:]+):(\d+)$/` (the
`authPattern` of `proxyType`). Since every capture group excludes `@`, and the
groups around each literal `:` exclude `:`, a string matches exactly when it
splits on `@` into two pieces, the first splitting on `:` into nonempty
user/password and the second into a nonempty whitespace-free host and a
nonempty all-digit port. -/
def authPatternTest (s : JStr) : Bool :=
  match splitOnChar '@' s with
  | [cred, addr] =>
    (match splitOnChar ':' cred with
     | [user, pass] => !user.isEmpty && !pass.isEmpty
     | _ => false)
    &&
    (match splitOnChar ':' addr with
     | [host, port] =>
       !host.isEmpty && host.all (fun c => !c.isWhitespace)
         && !port.isEmpty && port.all Char.isDigit
     | _ => false)
  | _ => false

/-- Decimal value of an all-digit character list. -/
def octetVal (l : JStr) : Nat := l.foldl (fun a c => a * 10 + (c.toNat - 48)) 0

/-- One repetition of the octet group of the regex
`/^((25[0-5]|(2[0-4]|1\d|[1-9]|)\d)(\.(?!$)|$)){4}$/` (`hasNumber` in
`convertProxy`): a decimal numeral between 0 and 255 with no leading zero. -/
def isOctet (l : JStr) : Bool :=
  !l.isEmpty && l.all Char.isDigit && (l.length == 1 || l.headD '0' != '0')
    && decide (octetVal l ≤ 255)

/-- Test of the `hasNumber` IPv4-literal regex of `convertProxy`: exactly four
dot-separated octets. -/
def hasNumberTest (s : JStr) : Bool :=
  let parts := splitOnChar '.' s
  parts.length == 4 && parts.all isOctet

/-- Errors thrown by the source, by message:
`proxyUndefined` = "Proxy cannot be undefined",
`invalidFormat` = "Invalid proxy format: <proxy>",
`resolutionFailure` = "Failed to resolve IP address for <host>.",
`invalidOptions` = "Invalid options",
`allProxiesFailed` = "All proxies have been tested and failed, please reset Cache using cacheReset()",
`pingFailed` = "Failed to get ping for <url> | Axios Error: <error>". -/
inductive PCError where
  | proxyUndefined
  | invalidFormat (proxy : JStr)
  | resolutionFailure (host : JStr)
  | invalidOptions
  | allProxiesFailed
  | pingFailed
  deriving DecidableEq, Repr

deriving instance DecidableEq for Except

/-- The three string results of `proxyType`: "direct", "auth", "invalid". -/
inductive ProxyTypeTag where
  | direct
  | auth
  | invalid
  deriving DecidableEq, Repr

/-- JavaScript falsiness of a possibly-undefined string (`!proxy`):
`undefined` and the empty string are falsy. -/
def falsy : Option JStr → Bool
  | none => true
  | some s => s.isEmpty

/-- Embedding of `proxyType`: throws for a falsy argument, otherwise
classifies by the two regexes, the direct pattern first. -/
def proxyType (proxy : Option JStr) : Except PCError ProxyTypeTag :=
  if falsy proxy then .error .proxyUndefined
  else if directPatternTest (proxy.getD []) then .ok .direct
  else if authPatternTest (proxy.getD []) then .ok .auth
  else .ok .invalid

/-- The `if (!hasNumber.test(proxyHost)) { dns.lookup ... }` step of
`convertProxy`: an IPv4-literal host is kept, any other host is resolved
through the DNS oracle, and a failed lookup becomes a resolution error. -/
def resolveHost (dns : JStr → Option JStr) (host : JStr) : Except PCError JStr :=
  if hasNumberTest host then .ok host
  else
    match dns host with
    | some ip => .ok ip
    | none => .error (.resolutionFailure host)

/-- Embedding of `convertProxy`. The splits mirror the JS destructuring
assignments: `[proxyHost, proxyPort] = proxy.split(":")` for the direct form,
and `split("@")` followed by two `split(":")` for the auth form; element `i`
of a destructured split is `(parts[i]?).getD []` (matched inputs always have
exactly the expected number of parts). -/
def convertProxy (dns : JStr → Option JStr) (proxy : Option JStr) :
    Except PCError JStr :=
  if falsy proxy then .error .proxyUndefined
  else
    let p := proxy.getD []
    match proxyType proxy with
    | .error e => .error e
    | .ok .direct =>
      let parts := splitOnChar ':' p
      let proxyHost := (parts[0]?).getD []
      let proxyPort := (parts[1]?).getD []
      match resolveHost dns proxyHost with
      | .error e => .error e
      | .ok h => .ok (h ++ ':' :: proxyPort)
    | .ok .auth =>
      let atParts := splitOnChar '@' p
      let credPart := (atParts[0]?).getD []
      let hostPart := (atParts[1]?).getD []
      let credParts := splitOnChar ':' credPart
      let proxyAuth := (credParts[0]?).getD []
      let proxyPassword := (credParts[1]?).getD []
      let hpParts := splitOnChar ':' hostPart
      let proxyHost := (hpParts[0]?).getD []
      let proxyPort := (hpParts[1]?).getD []
      match resolveHost dns proxyHost with
      | .error e => .error e
      | .ok h =>
        .ok (proxyAuth ++ ':' :: proxyPassword ++ '@' :: h ++ ':' :: proxyPort)
    | .ok .invalid => .error (.invalidFormat p)

/-- A dynamically typed JavaScript value, as far as the `typeof` checks of
`validateOptions` can distinguish them. -/
inductive JSVal where
  | bool (b : Bool)
  | num (n : Int)
  | str (s : String)
  | other
  deriving DecidableEq, Repr

def JSVal.isBool : JSVal → Bool
  | .bool _ => true
  | _ => false

def JSVal.isNum : JSVal → Bool
  | .num _ => true
  | _ => false

def JSVal.isStr : JSVal → Bool
  | .str _ => true
  | _ => false

/-- The raw caller-supplied options object: each field either absent
(`none`, i.e. JS `undefined`) or some dynamically typed value. -/
structure RawOptions where
  verbose : Option JSVal := none
  maxTimeout : Option JSVal := none
  verboseIdentifier : Option JSVal := none
  pingUrl : Option JSVal := none
  forceRetry : Option JSVal := none
  deriving DecidableEq, Repr

/-- The validated options, after defaulting and the `typeof` checks. -/
structure Options where
  verbose : Bool
  maxTimeout : Int
  verboseIdentifier : String
  pingUrl : String
  forceRetry : Bool
  deriving DecidableEq, Repr

/-- The defaulting phase of `validateOptions`: a missing options object is
replaced by a default object and every `undefined` field receives its
documented default. -/
def fillDefaults (o : Option RawOptions) : RawOptions :=
  let r := o.getD {}
  { verbose := some (r.verbose.getD (.bool false))
    maxTimeout := some (r.maxTimeout.getD (.num 1000))
    verboseIdentifier := some (r.verboseIdentifier.getD (.str "[proxyChooser]"))
    pingUrl := some (r.pingUrl.getD (.str "http://myexternalip.com/raw"))
    forceRetry := some (r.forceRetry.getD (.bool false)) }

/-- The `typeof` conjunction of `validateOptions`, in source order:
`maxTimeout` a number, `verbose` a boolean, `verboseIdentifier` a string,
`pingUrl` a string, `forceRetry` a boolean. -/
def validTypes (r : RawOptions) : Bool :=
  (r.maxTimeout.getD .other).isNum && (r.verbose.getD .other).isBool
    && (r.verboseIdentifier.getD .other).isStr && (r.pingUrl.getD .other).isStr
    && (r.forceRetry.getD .other).isBool

def asBool (f : Option JSVal) : Bool :=
  match f with
  | some (.bool b) => b
  | _ => false

def asNum (f : Option JSVal) : Int :=
  match f with
  | some (.num n) => n
  | _ => 0

def asStr (f : Option JSVal) : String :=
  match f with
  | some (.str s) => s
  | _ => ""

/-- Type checking phase of `validateOptions`: `none` exactly when the source
throws "Invalid options"; otherwise the read-out of the now well-typed
fields. -/
def checkOptions (r : RawOptions) : Option Options :=
  if validTypes r then
    some
      { verbose := asBool r.verbose
        maxTimeout := asNum r.maxTimeout
        verboseIdentifier := asStr r.verboseIdentifier
        pingUrl := asStr r.pingUrl
        forceRetry := asBool r.forceRetry }
  else none

/-- The mutable private fields of a `ProxyChooser` instance. -/
structure PCState where
  proxyList : List JStr
  options : Option RawOptions
  cache : List JStr
  deriving DecidableEq, Repr

/-- Result of a stateful operation that can throw: the final state is carried
in both the normal and the exceptional case. -/
inductive TRes (α : Type) where
  | ok (a : α) (st : PCState)
  | err (e : PCError) (st : PCState)
  deriving DecidableEq, Repr

/-- The final state of a `TRes`, whichever way the operation ended. -/
def TRes.state {α : Type} : TRes α → PCState
  | .ok _ st => st
  | .err _ st => st

/-- Embedding of `validateOptions`: fills defaults into `#options` (a
mutation that persists even if the subsequent type check throws) and then
type-checks the five fields. -/
def validateOptionsRun (st : PCState) : TRes Options :=
  let r := fillDefaults st.options
  let st' := { st with options := some r }
  match checkOptions r with
  | some opts => .ok opts st'
  | none => .err .invalidOptions st'

/-- Embedding of `resetList`: clears the list unless it is already empty, in
which case it reports `false`. -/
def resetList (st : PCState) : Bool × PCState :=
  if st.proxyList.length ≠ 0 then (true, { st with proxyList := [] })
  else (false, st)

/-- The argument of `addProxies`, as JavaScript sees it: `undefined`, some
defined non-array value, or an array of strings. -/
inductive ProxiesArg where
  | undef
  | notArray
  | arr (l : List JStr)
  deriving DecidableEq, Repr

/-- Embedding of `addProxies`: validates options first, rejects a missing,
non-array or empty argument with `false`, otherwise appends by spreading. -/
def addProxies (st : PCState) (proxies : ProxiesArg) : TRes Bool :=
  match validateOptionsRun st with
  | .err e st' => .err e st'
  | .ok _ st' =>
    match proxies with
    | .arr l =>
      if l.isEmpty then .ok false st'
      else .ok true { st' with proxyList := st'.proxyList ++ l }
    | _ => .ok false st'

/-- Embedding of `resetCache`: always clears the cache and returns `true`. -/
def resetCache (st : PCState) : Bool × PCState :=
  (true, { st with cache := [] })

/-- Outcome of the one axios request of a probe, as far as the code can
observe it: completion with a wall-clock duration in milliseconds, a timeout
(axios or `promise-timeout`), or a transport error. -/
inductive ProbeOutcome where
  | success (duration : Nat)
  | timeout
  | transportError
  deriving DecidableEq, Repr

/-- The external world: the DNS resolver, the network as seen through a
candidate proxy, and the unproxied ping endpoint. -/
structure Env where
  dns : JStr → Option JStr
  probe : JStr → ProbeOutcome
  ping : Option Nat

/-- The try block of `testProxy` around the probe request: any timeout or
transport error is caught and becomes `false`, and a completion whose
wall-clock duration exceeds `maxTimeout` is also converted to a thrown
timeout, caught, and returned as `false`. -/
def runProbe (env : Env) (opts : Options) (proxy : JStr) : Bool :=
  match env.probe proxy with
  | .success d => decide ((d : Int) ≤ opts.maxTimeout)
  | .timeout => false
  | .transportError => false

/-- Embedding of `testProxy`: validate options, reject a falsy proxy,
convert (errors propagate), then probe with all ordinary failures reduced to
`false`. -/
def testProxy (env : Env) (st : PCState) (proxy : Option JStr) : TRes Bool :=
  match validateOptionsRun st with
  | .err e st' => .err e st'
  | .ok opts st' =>
    if falsy proxy then .err .proxyUndefined st'
    else
      match convertProxy env.dns proxy with
      | .error e => .err e st'
      | .ok p => .ok (runProbe env opts p) st'

/-- Embedding of `getPing`: validate options, then one unproxied request whose
failure is rethrown as an error. -/
def getPing (env : Env) (st : PCState) : TRes Nat :=
  match validateOptionsRun st with
  | .err e st' => .err e st'
  | .ok _ st' =>
    match env.ping with
    | some d => .ok d st'
    | none => .err .pingFailed st'

/-- Result of `getProxy`: a working proxy, a thrown error, or exhaustion of
the recursion fuel of the model (the source recursion has no such bound).
`probes` counts how many connectivity probes (completed `testProxy` calls)
were made in total. -/
inductive GPRes where
  | ok (proxy : JStr) (st : PCState) (probes : Nat)
  | err (e : PCError) (st : PCState) (probes : Nat)
  | fuelOut (st : PCState) (probes : Nat)
  deriving DecidableEq, Repr

/-- Add `k` to the probe count of a result. -/
def addProbes (k : Nat) : GPRes → GPRes
  | .ok p st n => .ok p st (k + n)
  | .err e st n => .err e st (k + n)
  | .fuelOut st n => .fuelOut st (k + n)

def GPRes.probes : GPRes → Nat
  | .ok _ _ n => n
  | .err _ _ n => n
  | .fuelOut _ n => n

def GPRes.state : GPRes → PCState
  | .ok _ st _ => st
  | .err _ st _ => st
  | .fuelOut st _ => st

/-- The thrown error of a result, if it is one. -/
def GPRes.errOf : GPRes → Option PCError
  | .err e _ _ => some e
  | _ => none

/-- The `proxyList.filter(cproxy => !this.#cache.includes(cproxy))` step of
`getProxy`: the raw candidates whose raw string is not in the cache. -/
def remainingList (st : PCState) : List JStr :=
  st.proxyList.filter (fun c => decide (c ∉ st.cache))

/-- The random draw `proxyList[Math.floor(Math.random() * proxyList.length)]`:
the supplied random natural is reduced modulo the length (on the empty list
the index is `0` and the lookup is `undefined`, i.e. `none`). -/
def drawnCandidate (rand : List Nat) (st : PCState) : Option JStr :=
  (remainingList st)[(rand.headD 0) % max (remainingList st).length 1]?

/-- The cache update of `getProxy` after converting the drawn candidate:
push the normalized address if it is absent; if it is present and the cache
already has as many entries as the whole candidate list, throw the
exhaustion error (`none`); otherwise leave the cache as it is. -/
def cacheAndMark (st : PCState) (proxy : JStr) : Option PCState :=
  if proxy ∈ st.cache then
    if st.cache.length = st.proxyList.length then none
    else some st
  else some { st with cache := st.cache ++ [proxy] }

/-- The try block of `getProxy`: draw, convert, mark the cache, probe via
`testProxy`, and on a failed probe recurse through `recur` (the self call
`this.getProxy()`), adding the one probe just made to the count. -/
def getProxyTry (env : Env) (recur : List Nat → PCState → GPRes)
    (rand : List Nat) (st : PCState) : GPRes :=
  match convertProxy env.dns (drawnCandidate rand st) with
  | .error e => .err e st 0
  | .ok proxy =>
    match cacheAndMark st proxy with
    | none => .err .allProxiesFailed st 0
    | some st2 =>
      match testProxy env st2 (some proxy) with
      | .err e st3 => .err e st3 0
      | .ok working st3 =>
        if working then .ok proxy st3 1
        else addProbes 1 (recur rand.tail st3)

/-- Embedding of `getProxy`. Options are validated outside the try block, so
a configuration error propagates regardless of `forceRetry`. The catch block
re-enters via `resetCache()` and a self call when `forceRetry` is set, and
otherwise rethrows. The recursion is bounded by explicit fuel; the source has
no such bound. -/
def getProxy (env : Env) : Nat → List Nat → PCState → GPRes
  | 0, _, st => .fuelOut st 0
  | fuel + 1, rand, st =>
    match validateOptionsRun st with
    | .err e st1 => .err e st1 0
    | .ok opts st1 =>
      match getProxyTry env (getProxy env fuel) rand st1 with
      | .err e st2 p =>
        if opts.forceRetry then
          addProbes p (getProxy env fuel rand.tail (resetCache st2).2)
        else .err e st2 p
      | r => r

/-! Concrete instances used by witnesses and counterexamples. -/

/-- A DNS oracle resolving the hostnames `h` and `i`. -/
def dnsHosts : JStr → Option JStr := fun h =>
  if h = "h".toList then some "0.0.0.1".toList
  else if h = "i".toList then some "0.0.0.2".toList
  else none

/-- A world where every probe fails with a transport error. -/
def envAllFail : Env :=
  { dns := dnsHosts, probe := fun _ => .transportError, ping := none }

/-- A world where every probe completes instantly. -/
def envAllOk : Env :=
  { dns := dnsHosts, probe := fun _ => .success 0, ping := some 5 }

/-- A world where every probe hangs until the timeout. -/
def envAllTimeout : Env :=
  { dns := dnsHosts, probe := fun _ => .timeout, ping := none }

/-- The options object after defaulting an absent or empty input. -/
def filledDefaultRaw : RawOptions := fillDefaults none

/-- The validated default options. -/
def defaultOpts : Options :=
  { verbose := false, maxTimeout := 1000,
    verboseIdentifier := "[proxyChooser]",
    pingUrl := "http://myexternalip.com/raw", forceRetry := false }

/-- A freshly constructed engine with no candidates and absent options. -/
def stEmpty : PCState := { proxyList := [], options := none, cache := [] }

/-- Two hostname candidates, empty cache. -/
def stTwoHosts : PCState :=
  { proxyList := ["h:1".toList, "i:2".toList], options := some {}, cache := [] }

/-- A hostname candidate and an IP candidate that share the same normalized
form, which is already in the cache. -/
def stNormCached : PCState :=
  { proxyList := ["h:1".toList, "0.0.0.1:1".toList], options := some {},
    cache := ["0.0.0.1:1".toList] }

/-- One hostname candidate whose normalized form fills the cache. -/
def stHostCached : PCState :=
  { proxyList := ["h:1".toList], options := some {},
    cache := ["0.0.0.1:1".toList] }

/-- One IP-literal candidate, empty cache. -/
def stOneIP : PCState :=
  { proxyList := ["1.2.3.4:80".toList], options := some {}, cache := [] }

/-- Options with a present, negative `maxTimeout`. -/
def stNegTimeout : PCState :=
  { proxyList := [], options := some { maxTimeout := some (.num (-5)) },
    cache := [] }

/-- Options with a present `maxTimeout` of the wrong primitive type. -/
def stBadTimeout : PCState :=
  { proxyList := [], options := some { maxTimeout := some (.str "soon") },
    cache := [] }

/-- A stub continuation for statements about a single `getProxy` cycle. -/
def recurStub : List Nat → PCState → GPRes := fun _ _ => .fuelOut stEmpty 0

/-! ## Basic lemmas -/

theorem splitOnChar_ne_nil (sep : Char) (l : JStr) : splitOnChar sep l ≠ [] := by
  cases l with
  | nil => simp [splitOnChar]
  | cons c rest =>
    simp only [splitOnChar]
    split
    · simp
    · split <;> simp

theorem joinSep_splitOnChar (sep : Char) (l : JStr) :
    joinSep sep (splitOnChar sep l) = l := by
  induction l with
  | nil => rfl
  | cons c rest ih =>
    simp only [splitOnChar]
    by_cases h : c = sep
    · rw [if_pos h]
      cases hs : splitOnChar sep rest with
      | nil => exact absurd hs (splitOnChar_ne_nil sep rest)
      | cons a t =>
        rw [hs] at ih
        subst h
        simp [joinSep, ih]
    · rw [if_neg h]
      cases hs : splitOnChar sep rest with
      | nil => exact absurd hs (splitOnChar_ne_nil sep rest)
      | cons a t =>
        rw [hs] at ih
        cases t with
        | nil =>
          simp only [joinSep] at ih
          simp [joinSep, ih]
        | cons b t2 =>
          simp only [joinSep] at ih ⊢
          simp [ih]

theorem fillDefaults_idem (o : Option RawOptions) :
    fillDefaults (some (fillDefaults o)) = fillDefaults o := by
  simp [fillDefaults]

/-! ## Claim theorems -/

/-- C6: for every well-formed `host:port` candidate whose host is already a
dotted-quad IPv4 literal, `convertProxy` returns the candidate unchanged, and
hence re-normalizing its own output yields the same value (idempotence). -/
theorem convertProxy_idempotent_ipv4_direct (dns : JStr → Option JStr)
    (s host port : JStr)
    (hd : directPatternTest s = true)
    (hsp : splitOnChar ':' s = [host, port])
    (hip : hasNumberTest host = true) :
    convertProxy dns (some s) = .ok s ∧
    ∀ t, convertProxy dns (some s) = .ok t → convertProxy dns (some t) = .ok t := by
  have hne : s ≠ [] := by
    intro h
    rw [h] at hsp
    simp [splitOnChar] at hsp
  have hfal : falsy (some s) = false := by
    simp [falsy, List.isEmpty_iff, hne]
  have hpt : proxyType (some s) = .ok .direct := by
    simp [proxyType, hfal, hd]
  have hjoin : s = host ++ ':' :: port := by
    have h := joinSep_splitOnChar ':' s
    rw [hsp] at h
    simpa [joinSep] using h.symm
  have key : convertProxy dns (some s) = .ok s := by
    rw [hjoin]
    simp [convertProxy, falsy, List.isEmpty_iff, hne, ← hjoin, hpt, hsp,
      resolveHost, hip]
  refine ⟨key, fun t ht => ?_⟩
  rw [key] at ht
  injection ht with h
  rw [← h]
  exact key

theorem convertProxy_idempotent_ipv4_direct_witness :
    convertProxy (fun _ => none) (some "1.2.3.4:80".toList)
      = .ok "1.2.3.4:80".toList := by
  have h := convertProxy_idempotent_ipv4_direct (fun _ => none)
    "1.2.3.4:80".toList "1.2.3.4".toList "80".toList
    (by decide) (by decide) (by decide)
  exact h.2 _ h.1

/-- C7 counterexample: the empty string matches neither pattern, yet
`proxyType` throws the undefined-proxy error instead of returning the
"invalid" classification, and `convertProxy` fails with the undefined-proxy
error, not with the invalid-format error. -/
theorem proxyType_empty_string_not_invalid :
    directPatternTest [] = false ∧ authPatternTest [] = false ∧
    proxyType (some []) = .error .proxyUndefined ∧
    proxyType (some []) ≠ .ok .invalid ∧
    convertProxy (fun _ => none) (some []) = .error .proxyUndefined ∧
    convertProxy (fun _ => none) (some []) ≠ .error (.invalidFormat []) := by
  decide

/-- C7 amended: for every nonempty string that matches neither the direct
pattern nor the auth pattern, `proxyType` returns the "invalid"
classification and `convertProxy` fails with the invalid-format error (the
empty string instead hits the falsiness guard and both throw the
undefined-proxy error). -/
theorem proxyType_invalid_convert_fails (s : JStr)
    (hne : s ≠ [])
    (hd : directPatternTest s = false)
    (ha : authPatternTest s = false) :
    proxyType (some s) = .ok .invalid ∧
    ∀ dns, convertProxy dns (some s) = .error (.invalidFormat s) := by
  have hfal : falsy (some s) = false := by
    simp [falsy, List.isEmpty_iff, hne]
  have h1 : proxyType (some s) = .ok .invalid := by
    simp [proxyType, hfal, hd, ha]
  exact ⟨h1, fun dns => by simp [convertProxy, hfal, h1]⟩

theorem proxyType_invalid_convert_fails_witness :
    proxyType (some "not-a-proxy".toList) = .ok .invalid ∧
    convertProxy (fun _ => none) (some "not-a-proxy".toList)
      = .error (.invalidFormat "not-a-proxy".toList) := by
  have h := proxyType_invalid_convert_fails "not-a-proxy".toList
    (by decide) (by decide) (by decide)
  exact ⟨h.1, h.2 _⟩

/-- C4: with validating options, for every defined well-formed candidate that
converts successfully (host resolves), `testProxy` does not throw: it returns
the probe boolean, every timeout or transport failure of the probe reduces to
`false`, and the undefined-proxy precondition violation is the error thrown
for an undefined argument. -/
theorem testProxy_never_throws (env : Env) (st : PCState) (s t : JStr)
    (opts : Options)
    (hv : checkOptions (fillDefaults st.options) = some opts)
    (hc : convertProxy env.dns (some s) = .ok t) :
    testProxy env st (some s)
      = .ok (runProbe env opts t)
          { st with options := some (fillDefaults st.options) } ∧
    ((env.probe t = .timeout ∨ env.probe t = .transportError) →
      runProbe env opts t = false) ∧
    testProxy env st none
      = .err .proxyUndefined { st with options := some (fillDefaults st.options) } := by
  have hne : s ≠ [] := by
    intro h
    rw [h] at hc
    simp [convertProxy, falsy] at hc
  refine ⟨?_, ?_, ?_⟩
  · simp [testProxy, validateOptionsRun, hv, falsy, List.isEmpty_iff, hne, hc]
  · rintro (h | h) <;> simp [runProbe, h]
  · simp [testProxy, validateOptionsRun, hv, falsy]

theorem testProxy_never_throws_witness :
    testProxy envAllTimeout stOneIP (some "1.2.3.4:80".toList)
      = .ok false { stOneIP with options := some filledDefaultRaw } := by
  have h := testProxy_never_throws envAllTimeout stOneIP
    "1.2.3.4:80".toList "1.2.3.4:80".toList defaultOpts (by decide) (by decide)
  have hfalse : runProbe envAllTimeout defaultOpts "1.2.3.4:80".toList = false :=
    h.2.1 (Or.inl rfl)
  rw [hfalse] at h
  exact h.1

/-- C8: with validating options, `addProxies` returns `false` and leaves the
candidate list (and cache) unchanged when its argument is missing, not an
array, or empty; otherwise it appends the given candidates after the
existing entries and returns `true`. -/
theorem addProxies_spec (st : PCState) (arg : ProxiesArg) (opts : Options)
    (hv : checkOptions (fillDefaults st.options) = some opts) :
    ((arg = .undef ∨ arg = .notArray ∨ arg = .arr []) →
      addProxies st arg
        = .ok false { st with options := some (fillDefaults st.options) }) ∧
    (∀ l, arg = .arr l → l ≠ [] →
      addProxies st arg
        = .ok true { st with options := some (fillDefaults st.options),
                             proxyList := st.proxyList ++ l }) := by
  constructor
  · rintro (rfl | rfl | rfl) <;> simp [addProxies, validateOptionsRun, hv]
  · rintro l rfl hl
    simp [addProxies, validateOptionsRun, hv, List.isEmpty_iff, hl]

theorem addProxies_spec_witness :
    addProxies stEmpty (.arr []) = .ok false { stEmpty with options := some filledDefaultRaw } ∧
    addProxies stEmpty (.arr ["1.2.3.4:80".toList])
      = .ok true { stEmpty with options := some filledDefaultRaw,
                                proxyList := ["1.2.3.4:80".toList] } := by
  have h := addProxies_spec stEmpty (.arr []) defaultOpts (by decide)
  have h2 := addProxies_spec stEmpty (.arr ["1.2.3.4:80".toList]) defaultOpts (by decide)
  exact ⟨h.1 (Or.inr (Or.inr rfl)), h2.2 _ rfl (by decide)⟩

/-- C9 counterexample: `maxTimeout` is documented as a count of milliseconds
greater than zero, yet a present value of `-5` — a number, but outside that
semantic type — passes validation with no configuration error. -/
theorem validateOptions_accepts_negative_maxTimeout :
    validateOptionsRun stNegTimeout
      = .ok { verbose := false, maxTimeout := -5,
              verboseIdentifier := "[proxyChooser]",
              pingUrl := "http://myexternalip.com/raw", forceRetry := false }
          { stNegTimeout with options := some (fillDefaults stNegTimeout.options) } ∧
    ¬(0 < (-5 : Int)) := by decide

/-- C9 amended: every missing or undefined option field receives its
documented default; a present field of the wrong primitive type (number for
`maxTimeout`, boolean for `verbose`/`forceRetry`, string for
`verboseIdentifier`/`pingUrl`) is a fatal configuration error raised by each
validating operation before any network activity (the result is an
invalid-options error for every environment, with zero probes); value-level
constraints such as the positivity of `maxTimeout` are not checked. -/
theorem validateOptions_defaults_and_type_errors (o : RawOptions) :
    (o.verbose = none → (fillDefaults (some o)).verbose = some (.bool false)) ∧
    (o.maxTimeout = none → (fillDefaults (some o)).maxTimeout = some (.num 1000)) ∧
    (o.verboseIdentifier = none →
      (fillDefaults (some o)).verboseIdentifier = some (.str "[proxyChooser]")) ∧
    (o.pingUrl = none →
      (fillDefaults (some o)).pingUrl = some (.str "http://myexternalip.com/raw")) ∧
    (o.forceRetry = none → (fillDefaults (some o)).forceRetry = some (.bool false)) ∧
    (∀ v, o.verbose = some v → v.isBool = false →
      checkOptions (fillDefaults (some o)) = none) ∧
    (∀ v, o.maxTimeout = some v → v.isNum = false →
      checkOptions (fillDefaults (some o)) = none) ∧
    (∀ v, o.verboseIdentifier = some v → v.isStr = false →
      checkOptions (fillDefaults (some o)) = none) ∧
    (∀ v, o.pingUrl = some v → v.isStr = false →
      checkOptions (fillDefaults (some o)) = none) ∧
    (∀ v, o.forceRetry = some v → v.isBool = false →
      checkOptions (fillDefaults (some o)) = none) ∧
    (checkOptions (fillDefaults (some o)) = none →
      ∀ env rand fuel proxies (st : PCState), st.options = some o →
        testProxy env st proxies
            = .err .invalidOptions { st with options := some (fillDefaults (some o)) } ∧
        getPing env st
            = .err .invalidOptions { st with options := some (fillDefaults (some o)) } ∧
        getProxy env (fuel + 1) rand st
            = .err .invalidOptions { st with options := some (fillDefaults (some o)) } 0) := by
  refine ⟨fun h => by simp [fillDefaults, h], fun h => by simp [fillDefaults, h],
    fun h => by simp [fillDefaults, h], fun h => by simp [fillDefaults, h],
    fun h => by simp [fillDefaults, h],
    fun v hv hb => by simp [checkOptions, validTypes, fillDefaults, hv, hb],
    fun v hv hb => by simp [checkOptions, validTypes, fillDefaults, hv, hb],
    fun v hv hb => by simp [checkOptions, validTypes, fillDefaults, hv, hb],
    fun v hv hb => by simp [checkOptions, validTypes, fillDefaults, hv, hb],
    fun v hv hb => by simp [checkOptions, validTypes, fillDefaults, hv, hb],
    fun hnone env rand fuel proxies st hst => ?_⟩
  refine ⟨?_, ?_, ?_⟩
  · simp [testProxy, validateOptionsRun, hst, hnone]
  · simp [getPing, validateOptionsRun, hst, hnone]
  · simp [getProxy, validateOptionsRun, hst, hnone]

theorem validateOptions_defaults_and_type_errors_witness :
    checkOptions (fillDefaults (some { maxTimeout := some (.str "soon") })) = none ∧
    testProxy envAllOk stBadTimeout none
      = .err .invalidOptions { stBadTimeout with
          options := some (fillDefaults (some { maxTimeout := some (.str "soon") })) } := by
  have h := validateOptions_defaults_and_type_errors
    { maxTimeout := some (.str "soon") }
  have hnone := h.2.2.2.2.2.2.1 (.str "soon") rfl (by decide)
  exact ⟨hnone, (h.2.2.2.2.2.2.2.2.2.2 hnone envAllOk [] 0 none stBadTimeout rfl).1⟩

theorem addProbes_state (k : Nat) (r : GPRes) : (addProbes k r).state = r.state := by
  cases r <;> rfl

theorem validateOptionsRun_state (st : PCState) :
    (validateOptionsRun st).state
      = { st with options := some (fillDefaults st.options) } := by
  simp only [validateOptionsRun]
  cases checkOptions (fillDefaults st.options) <;> rfl

theorem testProxy_state_fields (env : Env) (st : PCState) (p : Option JStr) :
    (testProxy env st p).state.proxyList = st.proxyList ∧
    (testProxy env st p).state.cache = st.cache := by
  simp only [testProxy]
  cases hv : validateOptionsRun st with
  | err e st1 =>
    have hs := validateOptionsRun_state st
    rw [hv] at hs
    simp only [TRes.state] at hs
    simp [hv, TRes.state, hs]
  | ok opts st1 =>
    have hs := validateOptionsRun_state st
    rw [hv] at hs
    simp only [TRes.state] at hs
    simp only [hv]
    by_cases hf : falsy p
    · simp [hf, TRes.state, hs]
    · simp only [hf, Bool.false_eq_true, if_false]
      cases hcv : convertProxy env.dns p with
      | error e => simp [hcv, TRes.state, hs]
      | ok t => simp [hcv, TRes.state, hs]

theorem getProxyTry_proxyList (env : Env) (recur : List Nat → PCState → GPRes)
    (hrec : ∀ r s, (recur r s).state.proxyList = s.proxyList)
    (rand : List Nat) (st : PCState) :
    (getProxyTry env recur rand st).state.proxyList = st.proxyList := by
  simp only [getProxyTry]
  cases hc : convertProxy env.dns (drawnCandidate rand st) with
  | error e => simp [hc, GPRes.state]
  | ok proxy =>
    simp only [hc]
    have hmark : ∀ st2, cacheAndMark st proxy = some st2 →
        st2.proxyList = st.proxyList := by
      intro st2 hm
      simp only [cacheAndMark] at hm
      split at hm
      · split at hm
        · exact absurd hm (by simp)
        · cases Option.some.inj hm
          rfl
      · cases Option.some.inj hm
        rfl
    cases hm : cacheAndMark st proxy with
    | none => simp [hm, GPRes.state]
    | some st2 =>
      simp only [hm]
      have h2 := hmark st2 hm
      have h3 := (testProxy_state_fields env st2 (some proxy)).1
      cases ht : testProxy env st2 (some proxy) with
      | err e st3 =>
        rw [ht] at h3
        simp only [TRes.state] at h3
        simp [ht, GPRes.state, h3, h2]
      | ok w st3 =>
        rw [ht] at h3
        simp only [TRes.state] at h3
        simp only [ht]
        by_cases hw : w
        · subst hw
          simp [GPRes.state, h3, h2]
        · simp only [eq_false_of_ne_true hw, Bool.false_eq_true, if_false]
          rw [addProbes_state, hrec]
          rw [h3, h2]

theorem getProxy_preserves_proxyList (env : Env) :
    ∀ fuel rand st, (getProxy env fuel rand st).state.proxyList = st.proxyList := by
  intro fuel
  induction fuel with
  | zero => intro rand st; rfl
  | succ fuel ih =>
    intro rand st
    simp only [getProxy]
    cases hv : validateOptionsRun st with
    | err e st1 =>
      have hs := validateOptionsRun_state st
      rw [hv] at hs
      simp only [TRes.state] at hs
      simp [hv, GPRes.state, hs]
    | ok opts st1 =>
      have hs := validateOptionsRun_state st
      rw [hv] at hs
      simp only [TRes.state] at hs
      have hl1 : st1.proxyList = st.proxyList := by rw [hs]
      simp only [hv]
      have htry := getProxyTry_proxyList env (getProxy env fuel) ih rand st1
      cases hg : getProxyTry env (getProxy env fuel) rand st1 with
      | err e st2 p =>
        rw [hg] at htry
        simp only [GPRes.state] at htry
        simp only [hg]
        by_cases hfr : opts.forceRetry
        · simp only [hfr, if_true]
          rw [addProbes_state, ih]
          simp [resetCache, htry, hl1]
        · simp [eq_false_of_ne_true hfr, GPRes.state, htry, hl1]
      | ok pr st2 p =>
        rw [hg] at htry
        simp only [GPRes.state] at htry
        simp only [hg, GPRes.state]
        rw [htry, hl1]
      | fuelOut st2 p =>
        rw [hg] at htry
        simp only [GPRes.state] at htry
        simp only [hg, GPRes.state]
        rw [htry, hl1]

/-- C10: `testProxy` leaves both the candidate list and the tested cache
unchanged whatever its outcome (so does option validation and `getPing`);
`resetCache` clears exactly the cache, `resetList` never touches the cache,
`addProxies` only ever appends to the candidate list and never touches the
cache, and `getProxy` never changes the candidate list (its cache insertions
are the only other state mutation). -/
theorem state_mutation_frame :
    (∀ env st p, (testProxy env st p).state.proxyList = st.proxyList ∧
                 (testProxy env st p).state.cache = st.cache) ∧
    (∀ st, (validateOptionsRun st).state.proxyList = st.proxyList ∧
           (validateOptionsRun st).state.cache = st.cache) ∧
    (∀ st, resetCache st = (true, { st with cache := [] })) ∧
    (∀ st, (resetList st).2.cache = st.cache ∧
           (resetList st).2.options = st.options) ∧
    (∀ st a, (addProxies st a).state.cache = st.cache ∧
             ((addProxies st a).state.proxyList = st.proxyList ∨
              ∃ l, a = .arr l ∧
                (addProxies st a).state.proxyList = st.proxyList ++ l)) ∧
    (∀ env st, (getPing env st).state.proxyList = st.proxyList ∧
               (getPing env st).state.cache = st.cache) ∧
    (∀ env fuel rand st, (getProxy env fuel rand st).state.proxyList = st.proxyList) := by
  refine ⟨testProxy_state_fields, ?_, fun st => rfl, ?_, ?_, ?_,
    fun env fuel rand st => getProxy_preserves_proxyList env fuel rand st⟩
  · intro st
    rw [validateOptionsRun_state st]
    exact ⟨rfl, rfl⟩
  · intro st
    simp only [resetList]
    split <;> exact ⟨rfl, rfl⟩
  · intro st a
    simp only [addProxies]
    cases hv : validateOptionsRun st with
    | err e st1 =>
      have hs := validateOptionsRun_state st
      rw [hv] at hs
      simp only [TRes.state] at hs
      refine ⟨?_, Or.inl ?_⟩ <;> simp [hv, TRes.state, hs]
    | ok opts st1 =>
      have hs := validateOptionsRun_state st
      rw [hv] at hs
      simp only [TRes.state] at hs
      simp only [hv]
      cases a with
      | undef => refine ⟨?_, Or.inl ?_⟩ <;> simp [TRes.state, hs]
      | notArray => refine ⟨?_, Or.inl ?_⟩ <;> simp [TRes.state, hs]
      | arr l =>
        by_cases hl : l.isEmpty
        · simp only [hl, if_true]
          refine ⟨?_, Or.inl ?_⟩ <;> simp [TRes.state, hs]
        · simp only [hl, Bool.false_eq_true, if_false]
          refine ⟨?_, Or.inr ⟨l, rfl, ?_⟩⟩ <;> simp [TRes.state, hs]
  · intro env st
    simp only [getPing]
    cases hv : validateOptionsRun st with
    | err e st1 =>
      have hs := validateOptionsRun_state st
      rw [hv] at hs
      simp only [TRes.state] at hs
      simp [hv, TRes.state, hs]
    | ok opts st1 =>
      have hs := validateOptionsRun_state st
      rw [hv] at hs
      simp only [TRes.state] at hs
      simp only [hv]
      cases env.ping <;> simp [TRes.state, hs]

/-- C5: in a `getProxy` cycle whose drawn candidate converts to the
normalized address `n`, if `n` is not yet cached it is appended to the cache
before the probe runs — the probe is invoked on the state whose cache
already ends with `n` — and if `n` is already cached while the cache is as
large as the whole candidate list, the cycle throws the exhaustion error
without probing; if `n` is already cached but the cache is smaller, the
probe runs on the unchanged state, whose cache already holds `n`. -/
theorem getProxy_marks_cache_before_probe (env : Env)
    (recur : List Nat → PCState → GPRes) (rand : List Nat) (st : PCState)
    (n : JStr)
    (hc : convertProxy env.dns (drawnCandidate rand st) = .ok n) :
    (n ∉ st.cache →
      getProxyTry env recur rand st
        = match testProxy env { st with cache := st.cache ++ [n] } (some n) with
          | .err e st3 => .err e st3 0
          | .ok working st3 =>
            if working then .ok n st3 1
            else addProbes 1 (recur rand.tail st3)) ∧
    (n ∈ st.cache → st.cache.length = st.proxyList.length →
      getProxyTry env recur rand st = .err .allProxiesFailed st 0) ∧
    (n ∈ st.cache → st.cache.length ≠ st.proxyList.length →
      getProxyTry env recur rand st
        = match testProxy env st (some n) with
          | .err e st3 => .err e st3 0
          | .ok working st3 =>
            if working then .ok n st3 1
            else addProbes 1 (recur rand.tail st3)) := by
  refine ⟨?_, ?_, ?_⟩
  · intro hmem
    simp [getProxyTry, hc, cacheAndMark, hmem]
  · intro hmem hlen
    simp [getProxyTry, hc, cacheAndMark, hmem, hlen]
  · intro hmem hlen
    simp [getProxyTry, hc, cacheAndMark, hmem, hlen]

theorem getProxy_marks_cache_before_probe_witness :
    getProxyTry envAllOk recurStub [0] stOneIP
      = .ok "1.2.3.4:80".toList
          { stOneIP with cache := ["1.2.3.4:80".toList],
                         options := some filledDefaultRaw } 1 := by
  have h := (getProxy_marks_cache_before_probe envAllOk recurStub [0] stOneIP
    "1.2.3.4:80".toList (by decide)).1 (by decide)
  rw [h]
  decide

/-- C2 counterexample: in `stNormCached` the normalized form of every
candidate is already in the tested cache, so a remaining set computed by
normalized form would be empty and the cycle would have to fail with the
exhaustion error rather than probe; instead the filter compares raw
candidate strings against the cache of normalized strings, the remaining set
still holds the raw hostname candidate, and `getProxy` probes it (one probe)
and returns its normalized address. -/
theorem getProxy_remaining_uses_raw_strings :
    convertProxy envAllOk.dns (some "h:1".toList) = .ok "0.0.0.1:1".toList ∧
    convertProxy envAllOk.dns (some "0.0.0.1:1".toList) = .ok "0.0.0.1:1".toList ∧
    "0.0.0.1:1".toList ∈ stNormCached.cache ∧
    remainingList stNormCached = ["h:1".toList] ∧
    getProxy envAllOk 3 [0] stNormCached
      = .ok "0.0.0.1:1".toList
          { stNormCached with options := some filledDefaultRaw } 1 := by
  decide

/-- C2 amended: the remaining set is the candidate list minus the tested
cache compared by raw candidate string (the cache holds normalized strings,
so a hostname candidate is not excluded by its normalized form); when the
remaining set is empty the draw is `undefined` and the cycle fails before
probing with the undefined-proxy error rather than the exhaustion error; the
drawn element is the remaining candidate at the supplied random index modulo
the size of the remaining set, and every remaining raw candidate is
drawable. -/
theorem getProxy_drawing_semantics (env : Env)
    (recur : List Nat → PCState → GPRes) (rand : List Nat) (st : PCState) :
    remainingList st = st.proxyList.filter (fun c => decide (c ∉ st.cache)) ∧
    (remainingList st = [] →
      getProxyTry env recur rand st = .err .proxyUndefined st 0) ∧
    (∀ r rest, rand = r :: rest → remainingList st ≠ [] →
      drawnCandidate rand st = (remainingList st)[r % (remainingList st).length]?) ∧
    (∀ i, i < (remainingList st).length →
      drawnCandidate [i] st = (remainingList st)[i]?) := by
  refine ⟨rfl, ?_, ?_, ?_⟩
  · intro hrem
    have hdraw : drawnCandidate rand st = none := by
      simp [drawnCandidate, hrem]
    simp [getProxyTry, hdraw, convertProxy, falsy]
  · intro r rest hr hne
    have hlen : 1 ≤ (remainingList st).length :=
      Nat.one_le_iff_ne_zero.mpr (by simpa [List.length_eq_zero] using hne)
    simp [drawnCandidate, hr, Nat.max_eq_left hlen]
  · intro i hi
    have hlen : 1 ≤ (remainingList st).length := by omega
    simp [drawnCandidate, Nat.max_eq_left hlen, Nat.mod_eq_of_lt hi]

theorem getProxy_drawing_semantics_witness :
    getProxyTry envAllFail recurStub [] stEmpty = .err .proxyUndefined stEmpty 0 := by
  exact (getProxy_drawing_semantics envAllFail recurStub [] stEmpty).2.1 (by decide)

/-- C3: when the try block of a `getProxy` cycle throws (the exhaustion error
included) and `forceRetry` is set, the tested cache is cleared via
`resetCache` and `getProxy` re-enters the draw on the cleared state instead
of propagating the error; when `forceRetry` is unset the thrown error — in
the exhaustion case the terminal all-proxies-failed error — propagates to
the caller. -/
theorem getProxy_forceRetry_policy (env : Env) (fuel : Nat) (rand : List Nat)
    (st st1 st2 : PCState) (opts : Options) (e : PCError) (p : Nat)
    (hv : validateOptionsRun st = .ok opts st1)
    (ha : getProxyTry env (getProxy env fuel) rand st1 = .err e st2 p) :
    (opts.forceRetry = true →
      getProxy env (fuel + 1) rand st
        = addProbes p (getProxy env fuel rand.tail (resetCache st2).2) ∧
      (resetCache st2).2 = { st2 with cache := [] }) ∧
    (opts.forceRetry = false →
      getProxy env (fuel + 1) rand st = .err e st2 p) := by
  constructor
  · intro hfr
    exact ⟨by simp [getProxy, hv, ha, hfr], rfl⟩
  · intro hfr
    simp [getProxy, hv, ha, hfr]

theorem getProxy_forceRetry_policy_witness :
    getProxy envAllFail 1 [0] stHostCached
      = .err .allProxiesFailed { stHostCached with options := some filledDefaultRaw } 0 := by
  exact (getProxy_forceRetry_policy envAllFail 0 [0] stHostCached
    { stHostCached with options := some filledDefaultRaw }
    { stHostCached with options := some filledDefaultRaw }
    defaultOpts .allProxiesFailed 0 (by decide) (by decide)).2 rfl

/-- C1 counterexample: a list of two hostname candidates with `forceRetry`
unset makes four probe attempts — more than the candidate-list size two, and
probing the first candidate three times — before terminating, because a
failed hostname candidate is never filtered out of the remaining set (its
raw string is compared against the cache of normalized strings) and can be
drawn and probed again. -/
theorem getProxy_exceeds_probe_bound :
    stTwoHosts.proxyList.length = 2 ∧
    (checkOptions (fillDefaults stTwoHosts.options)).map Options.forceRetry
      = some false ∧
    getProxy envAllFail 10 [0, 0, 0, 1, 0] stTwoHosts
      = .err .allProxiesFailed
          { stTwoHosts with options := some filledDefaultRaw,
                            cache := ["0.0.0.1:1".toList, "0.0.0.2:2".toList] } 4 ∧
    2 < 4 := by
  decide

theorem length_filter_le_of_imp (p q : JStr → Bool)
    (h : ∀ x, q x = true → p x = true) :
    ∀ l : List JStr, (l.filter q).length ≤ (l.filter p).length := by
  intro l
  induction l with
  | nil => simp
  | cons a t ih =>
    by_cases hq : q a
    · have hp := h a hq
      simp only [List.filter_cons, hq, hp, if_true, List.length_cons]
      omega
    · by_cases hp : p a <;>
        simp only [List.filter_cons, hq, hp, Bool.false_eq_true, if_false,
          if_true, List.length_cons] <;>
        omega

theorem length_filter_lt_of_mem (p q : JStr → Bool) (c : JStr)
    (hqc : q c = false) (hpc : p c = true)
    (himp : ∀ x, q x = true → p x = true) :
    ∀ l : List JStr, c ∈ l →
      (l.filter q).length < (l.filter p).length := by
  intro l hc
  induction l with
  | nil => cases hc
  | cons a t ih =>
    rcases List.mem_cons.mp hc with rfl | hmem
    · simp only [List.filter_cons, hqc, hpc, Bool.false_eq_true, if_false,
        if_true, List.length_cons]
      exact Nat.lt_succ_of_le (length_filter_le_of_imp p q himp t)
    · by_cases hq : q a
      · have hp := himp a hq
        simp only [List.filter_cons, hq, hp, if_true, List.length_cons]
        exact Nat.succ_lt_succ (ih hmem)
      · by_cases hp : p a
        · simp only [List.filter_cons, hq, hp, Bool.false_eq_true, if_false,
            if_true, List.length_cons]
          exact Nat.lt_succ_of_lt (ih hmem)
        · simp only [List.filter_cons, hq, hp, Bool.false_eq_true, if_false]
          exact ih hmem

theorem getProxy_fixedpoint_aux (env : Env) (opts : Options)
    (hfr : opts.forceRetry = false) :
    ∀ fuel rand (st : PCState),
      checkOptions (fillDefaults st.options) = some opts →
      (∀ c ∈ st.proxyList, convertProxy env.dns (some c) = .ok c) →
      (remainingList st).length < fuel →
      (∃ pr st' n, getProxy env fuel rand st = .ok pr st' n
          ∧ n ≤ (remainingList st).length) ∨
      (∃ st' n, getProxy env fuel rand st = .err .proxyUndefined st' n
          ∧ n ≤ (remainingList st).length) := by
  intro fuel
  induction fuel with
  | zero =>
    intro rand st hv hfix hfuel
    exact absurd hfuel (Nat.not_lt_zero _)
  | succ fuel ih =>
    intro rand st hv hfix hfuel
    have hvr : validateOptionsRun st
        = .ok opts { st with options := some (fillDefaults st.options) } := by
      simp [validateOptionsRun, hv]
    have hrem1 : remainingList { st with options := some (fillDefaults st.options) }
        = remainingList st := rfl
    cases hrem : remainingList st with
    | nil =>
      have hdraw : drawnCandidate rand
          { st with options := some (fillDefaults st.options) } = none := by
        simp [drawnCandidate, hrem1, hrem]
      right
      refine ⟨{ st with options := some (fillDefaults st.options) }, 0, ?_,
        Nat.zero_le _⟩
      simp only [getProxy, hvr]
      simp [getProxyTry, hdraw, convertProxy, falsy, hfr]
    | cons c0 rest =>
      have hlenpos : 0 < (remainingList st).length := by
        rw [hrem]; simp
      have hidx : (rand.headD 0) % max (remainingList st).length 1
          < (remainingList st).length := by
        rw [Nat.max_eq_left hlenpos]
        exact Nat.mod_lt _ hlenpos
      obtain ⟨c, hcdraw⟩ : ∃ c,
          drawnCandidate rand { st with options := some (fillDefaults st.options) }
            = some c := by
        simp only [drawnCandidate, hrem1]
        exact ⟨_, List.getElem?_eq_getElem hidx⟩
      have hcmem : c ∈ remainingList st := by
        have h := hcdraw
        simp only [drawnCandidate, hrem1] at h
        exact List.getElem?_mem h
      have hcml : c ∈ st.proxyList ∧ c ∉ st.cache := by
        simpa [remainingList, List.mem_filter] using hcmem
      have hconv : convertProxy env.dns (some c) = .ok c := hfix c hcml.1
      have hcne : c ≠ [] := by
        intro h
        rw [h] at hconv
        simp [convertProxy, falsy] at hconv
      have hmark : cacheAndMark { st with options := some (fillDefaults st.options) } c
          = some { st with options := some (fillDefaults st.options),
                           cache := st.cache ++ [c] } := by
        simp [cacheAndMark, hcml.2]
      have hv2 : checkOptions (fillDefaults (some (fillDefaults st.options)))
          = some opts := by
        rw [fillDefaults_idem]
        exact hv
      have hvr2 : validateOptionsRun
          { st with options := some (fillDefaults st.options),
                    cache := st.cache ++ [c] }
          = .ok opts { st with options := some (fillDefaults st.options),
                               cache := st.cache ++ [c] } := by
        simp [validateOptionsRun, fillDefaults_idem, hv]
      have htp : testProxy env
          { st with options := some (fillDefaults st.options),
                    cache := st.cache ++ [c] } (some c)
          = .ok (runProbe env opts c)
              { st with options := some (fillDefaults st.options),
                        cache := st.cache ++ [c] } := by
        simp [testProxy, hvr2, falsy, List.isEmpty_iff, hcne, hconv]
      have htry : getProxyTry env (getProxy env fuel) rand
          { st with options := some (fillDefaults st.options) }
          = (if runProbe env opts c
              then .ok c { st with options := some (fillDefaults st.options),
                                   cache := st.cache ++ [c] } 1
              else addProbes 1 (getProxy env fuel rand.tail
                { st with options := some (fillDefaults st.options),
                          cache := st.cache ++ [c] })) := by
        simp only [getProxyTry, hcdraw, hconv, hmark, htp]
      by_cases hb : runProbe env opts c
      · left
        refine ⟨c, { st with options := some (fillDefaults st.options),
                             cache := st.cache ++ [c] }, 1, ?_, ?_⟩
        · simp only [getProxy, hvr, htry, hb, if_true]
        · simp
      · have hrem2 : remainingList
            { st with options := some (fillDefaults st.options),
                      cache := st.cache ++ [c] }
            = st.proxyList.filter (fun x => decide (x ∉ st.cache ++ [c])) := rfl
        have hdec : (remainingList
            { st with options := some (fillDefaults st.options),
                      cache := st.cache ++ [c] }).length
            < (remainingList st).length := by
          rw [hrem2]
          have himp : ∀ x, (fun x => decide (x ∉ st.cache ++ [c])) x = true →
              (fun x => decide (x ∉ st.cache)) x = true := by
            intro x hx
            simp only [decide_eq_true_eq] at hx ⊢
            intro hmem
            exact hx (List.mem_append_left _ hmem)
          have h := length_filter_lt_of_mem (fun x => decide (x ∉ st.cache))
            (fun x => decide (x ∉ st.cache ++ [c])) c (by simp)
            (by simp [hcml.2]) himp st.proxyList hcml.1
          simpa [remainingList] using h
        have hfuel2 : (remainingList
            { st with options := some (fillDefaults st.options),
                      cache := st.cache ++ [c] }).length < fuel := by
          have h1 : (remainingList st).length ≤ fuel := Nat.lt_succ_iff.mp hfuel
          omega
        rcases ih rand.tail
            { st with options := some (fillDefaults st.options),
                      cache := st.cache ++ [c] } hv2 hfix hfuel2 with
          ⟨pr, st3, n, heq, hn⟩ | ⟨st3, n, heq, hn⟩
        · left
          refine ⟨pr, st3, 1 + n, ?_, ?_⟩
          · simp only [getProxy, hvr, htry, hb, Bool.false_eq_true, if_false]
            rw [heq]
            rfl
          · have hleneq : (remainingList st).length = rest.length + 1 := by
              rw [hrem]
              simp
            simp only [List.length_cons]
            omega
        · right
          refine ⟨st3, 1 + n, ?_, ?_⟩
          · simp only [getProxy, hvr, htry, hb, Bool.false_eq_true, if_false]
            rw [heq]
            simp [addProbes, hfr]
          · have hleneq : (remainingList st).length = rest.length + 1 := by
              rw [hrem]
              simp
            simp only [List.length_cons]
            omega

/-- C1 amended: with `forceRetry` unset, validating options, and every
candidate a fixed point of normalization (as every well-formed candidate
with an IPv4-literal host is), `getProxy` with fuel exceeding the number of
untested candidates terminates after at most `|CandidateList|` probe
attempts, either returning a working address or failing with the terminal
undefined-proxy error that the exhausted draw raises (the all-proxies-failed
message is not the error on this path); for hostname candidates, whose raw
string differs from their normalized form, the probe bound fails (see the
counterexample). -/
theorem getProxy_fixedpoint_probe_bound (env : Env) (opts : Options)
    (fuel : Nat) (rand : List Nat) (st : PCState)
    (hfr : opts.forceRetry = false)
    (hv : checkOptions (fillDefaults st.options) = some opts)
    (hfix : ∀ c ∈ st.proxyList, convertProxy env.dns (some c) = .ok c)
    (hfuel : (remainingList st).length < fuel) :
    (∃ pr st' n, getProxy env fuel rand st = .ok pr st' n
        ∧ n ≤ st.proxyList.length) ∨
    (∃ st' n, getProxy env fuel rand st = .err .proxyUndefined st' n
        ∧ n ≤ st.proxyList.length) := by
  have hle : (remainingList st).length ≤ st.proxyList.length :=
    List.length_filter_le _ _
  rcases getProxy_fixedpoint_aux env opts hfr fuel rand st hv hfix hfuel with
    ⟨pr, st', n, h, hn⟩ | ⟨st', n, h, hn⟩
  · exact Or.inl ⟨pr, st', n, h, le_trans hn hle⟩
  · exact Or.inr ⟨st', n, h, le_trans hn hle⟩

theorem getProxy_fixedpoint_probe_bound_witness :
    (∃ pr st' n, getProxy envAllFail 2 [0, 0] stOneIP = .ok pr st' n
        ∧ n ≤ stOneIP.proxyList.length) ∨
    (∃ st' n, getProxy envAllFail 2 [0, 0] stOneIP = .err .proxyUndefined st' n
        ∧ n ≤ stOneIP.proxyList.length) := by
  refine getProxy_fixedpoint_probe_bound envAllFail defaultOpts 2 [0, 0] stOneIP
    rfl (by decide) ?_ (by decide)
  intro c hc
  have : c = "1.2.3.4:80".toList := by simpa [stOneIP] using hc
  rw [this]
  decide

end ProxyChooser
